import Mathlib

/-!
Verification development for the Sharetribe process visualizer core:
the EDN parser (`client/src/lib/edn-parser.ts`) and the graph/layout
generator (`graph-generator`, the module importing `@xyflow/react`).

The TypeScript source is embedded shallowly:

* JS strings are `String`/`List Char`; the regular expressions the code
  uses are embedded as explicit left-to-right scanners with the same
  match semantics (first position where the whole pattern matches,
  greedy character classes, `\s` = whitespace).
* JS numbers appearing in the layout code are integers except for the
  value `-Infinity` produced by `Math.max()` of an empty spread, so they
  are embedded as `ENum` (an integer or negative infinity).
* Fallible parse functions (`throw`) return `Except String`.
* `Map`/`Set` objects are insertion-ordered association lists, matching
  the iteration order the code relies on.
-/

namespace ProcessViz

set_option maxRecDepth 8000

/-- JS number as used by the layout code: an integer or `-Infinity`
(the result of `Math.max()` with no arguments). -/
inductive ENum where
  | negInf : ENum
  | int : Int → ENum
deriving DecidableEq

/-- Multiplication of a JS number by a positive integer constant
(the code multiplies levels by 150 or 180, both positive, so
`-Infinity * k = -Infinity`). -/
def ENum.scale (k : Int) : ENum → ENum
  | negInf => negInf
  | int n => int (n * k)

/-- Addition of an integer constant: `-Infinity + k = -Infinity`. -/
def ENum.addC (k : Int) : ENum → ENum
  | negInf => negInf
  | int n => int (n + k)

/-- Binary `Math.max` on JS numbers (`-Infinity` is the identity). -/
def ENum.max2 : ENum → ENum → ENum
  | negInf, b => b
  | int m, negInf => int m
  | int m, int n => int (Max.max m n)

/-- `Math.max(...values)`: `-Infinity` when the list is empty. -/
def enumMaxList (l : List ENum) : ENum := l.foldl ENum.max2 ENum.negInf

/-- JS `value || 0` on an optional number read from a `Map`:
`undefined` and `0` are falsy, `-Infinity` and nonzero ints are truthy. -/
def jsOr0 : Option ENum → ENum
  | none => ENum.int 0
  | some (ENum.int 0) => ENum.int 0
  | some v => v

/-- JS `value || dflt` on an optional string: `undefined` and `""` are
falsy. -/
def jsOrStr (v : Option String) (dflt : String) : String :=
  match v with
  | none => dflt
  | some s => if s = "" then dflt else s

/-- JS truthiness of an optional string field (`undefined` and `""` are
falsy). -/
def jsTruthyStr : Option String → Bool
  | none => false
  | some s => decide (s ≠ "")

/-- JS `\s` on the ASCII range (space, tab, newline, carriage return,
vertical tab, form feed). -/
def isWsChar (c : Char) : Bool :=
  c = ' ' ∨ c = '\t' ∨ c = '\n' ∨ c = '\r' ∨ c = '\x0b' ∨ c = '\x0c'

/-- ASCII lower-casing, embedding `String.prototype.toLowerCase` on the
identifiers the code normalizes. -/
def toLowerJs (s : String) : String := ⟨s.data.map Char.toLower⟩

/-- Does the first list start with the second? -/
def listStartsWith : List Char → List Char → Bool
  | _, [] => true
  | [], _ :: _ => false
  | c :: cs, p :: ps => c = p && listStartsWith cs ps

/-- `str.replace(/^pre/, '')`: drop `pre` when it is a prefix,
otherwise return the string unchanged. -/
def stripPre (pre s : String) : String :=
  if listStartsWith s.data pre.data then ⟨s.data.drop pre.data.length⟩ else s

/-- Substring occurrence test on character lists. -/
def hasSub (big pat : List Char) : Bool :=
  match big with
  | [] => listStartsWith [] pat
  | c :: rest => listStartsWith (c :: rest) pat || hasSub rest pat

/-- JS `String.prototype.includes`: substring test. -/
def containsSub (s pat : String) : Bool := hasSub s.data pat.data

/-- JS `String.prototype.trim` (ASCII whitespace). -/
def jsTrim (s : String) : String :=
  ⟨(s.data.dropWhile isWsChar).reverse.dropWhile isWsChar |>.reverse⟩

/-- `Array.prototype.indexOf` on strings: first index, `-1` if absent. -/
def jsIndexOf (l : List String) (s : String) : Int :=
  match l with
  | [] => -1
  | x :: xs => if x = s then 0 else
      match jsIndexOf xs s with
      | -1 => -1
      | i => i + 1

/-- Insertion-ordered `Set.add`: append when not yet present. -/
def insertUniq (l : List String) (s : String) : List String :=
  if s ∈ l then l else l ++ [s]

/-- Insertion-ordered `Map.get`. -/
def lookupAssoc (m : List (String × ENum)) (k : String) : Option ENum :=
  match m with
  | [] => none
  | (k', v) :: rest => if k' = k then some v else lookupAssoc rest k

/-- Insertion-ordered `Map.set`: update in place when the key exists,
append otherwise. -/
def mapSet (m : List (String × ENum)) (k : String) (v : ENum) :
    List (String × ENum) :=
  match m with
  | [] => [(k, v)]
  | (k', v') :: rest =>
      if k' = k then (k', v) :: rest else (k', v') :: mapSet rest k v

/-- `Map.values()` in insertion order. -/
def mapValues (m : List (String × ENum)) : List ENum := m.map Prod.snd

/-- Split a JS string at `/\s+/` and drop the empty pieces: the maximal
non-whitespace runs. Every `split(/\s+/)` in the parser is immediately
filtered by `s.trim() && ...`, which keeps exactly these runs. -/
def splitWsTokens (l : List Char) : List String :=
  ((l.splitOnP isWsChar).map (fun cs => (⟨cs⟩ : String))).filter
    (fun s => s ≠ "")

/-! ### Regex scanning

Each regular expression the parser uses starts with a literal key, then
`\s+` (or `\s*`), then a simple greedy character class. A JS `match`
returns the first position at which the *whole* pattern matches, so each
pattern is embedded as a matcher tried at one position, together with
`searchFirst`, which tries every position left to right. Greedy classes
followed by a fixed character are equivalent to maximal runs (the run is
delimited by the very character the pattern requires next), so no
backtracking is needed. -/

/-- Try a matcher at every position of the list, left to right, and
return the first success — the semantics of `String.prototype.match`
with an unanchored pattern. -/
def searchFirst {α : Type} (f : List Char → Option α) : List Char → Option α
  | [] => f []
  | c :: rest =>
      match f (c :: rest) with
      | some r => some r
      | none => searchFirst f rest

/-- `\s+`: require at least one whitespace character, consume the whole
run. -/
def dropWs1 (l : List Char) : Option (List Char) :=
  match l with
  | c :: rest => if isWsChar c then some (rest.dropWhile isWsChar) else none
  | [] => none

/-- Stop set of `[^\s\n]+`. -/
def ednNameStop (c : Char) : Bool := isWsChar c

/-- Stop set of `[^\s\n,]+`. -/
def commaStop (c : Char) : Bool := isWsChar c || c = ','

/-- Stop set of `[^\s\n,}]+`. -/
def braceStop (c : Char) : Bool := isWsChar c || c = ',' || c = '\x7d'

/-- Matcher for `key\s+:(<class>+)` at one position: the literal key,
one-or-more whitespace, a colon, then a nonempty maximal run of
characters outside `stop`. Returns the capture group. -/
def tryKeyColonCapture (key : List Char) (stop : Char → Bool)
    (l : List Char) : Option String :=
  if listStartsWith l key then
    match dropWs1 (l.drop key.length) with
    | some (':' :: r2) =>
        let cap := r2.takeWhile (fun c => ¬ stop c)
        if cap = [] then none else some ⟨cap⟩
    | _ => none
  else none

/-- Matcher for `key\s+#{([^}]+)}` at one position (the v2 states set).
Returns the capture between the braces. -/
def tryKeyHashBrace (key : List Char) (l : List Char) : Option String :=
  if listStartsWith l key then
    match dropWs1 (l.drop key.length) with
    | some ('#' :: '\x7b' :: r2) =>
        let cap := r2.takeWhile (fun c => c ≠ '\x7d')
        if cap ≠ [] ∧ '\x7d' ∈ r2 then some ⟨cap⟩ else none
    | _ => none
  else none

/-- Matcher for `key\s+\[(.*)\]` with the dot-all flag (the v2
transitions vector): greedy `.*` captures up to the *last* `]` in the
rest of the input. -/
def tryKeyBracketGreedy (key : List Char) (l : List Char) : Option String :=
  if listStartsWith l key then
    match dropWs1 (l.drop key.length) with
    | some ('[' :: r2) =>
        if ']' ∈ r2 then
          some ⟨r2.take (r2.length - 1 - (r2.reverse.takeWhile (fun c => c ≠ ']')).length)⟩
        else none
    | _ => none
  else none

/-- Matcher for `key\s+\[([^\]]+)\]` (v2 actions and notifications
vectors): a nonempty run of non-`]` characters. -/
def tryKeyBracketSimple (key : List Char) (l : List Char) : Option String :=
  if listStartsWith l key then
    match dropWs1 (l.drop key.length) with
    | some ('[' :: r2) =>
        let cap := r2.takeWhile (fun c => c ≠ ']')
        if cap ≠ [] ∧ ']' ∈ r2 then some ⟨cap⟩ else none
    | _ => none
  else none

/-- Matcher for `:transition\/from\s+(#{[^}]+}|:[^\s\n]+)`: the capture
is either a whole `#{...}` set literal or a single `:keyword`. -/
def tryV2From (key : List Char) (l : List Char) : Option String :=
  if listStartsWith l key then
    match dropWs1 (l.drop key.length) with
    | some ('#' :: '\x7b' :: r2) =>
        let cap := r2.takeWhile (fun c => c ≠ '\x7d')
        if cap ≠ [] ∧ '\x7d' ∈ r2 then
          some ⟨'#' :: '\x7b' :: (cap ++ ['\x7d'])⟩
        else none
    | some (':' :: r2) =>
        let cap := r2.takeWhile (fun c => ¬ isWsChar c)
        if cap = [] then none else some ⟨':' :: cap⟩
    | _ => none
  else none

/-- Matcher for `:config\s+({[^}]+})`: the capture includes the braces. -/
def tryConfigBrace (key : List Char) (l : List Char) : Option String :=
  if listStartsWith l key then
    match dropWs1 (l.drop key.length) with
    | some ('\x7b' :: r2) =>
        let cap := r2.takeWhile (fun c => c ≠ '\x7d')
        if cap ≠ [] ∧ '\x7d' ∈ r2 then
          some ⟨'\x7b' :: (cap ++ ['\x7d'])⟩
        else none
    | _ => none
  else none

/-- Matcher for `key\s*\[` used by `extractBracketedContent`: zero or
more whitespace, then an opening bracket; returns the rest of the input
after the bracket. -/
def tryKeyWsStarBracket (key : List Char) (l : List Char) :
    Option (List Char) :=
  if listStartsWith l key then
    match (l.drop key.length).dropWhile isWsChar with
    | '[' :: r2 => some r2
    | _ => none
  else none

/-- The bracket-counting loop of `extractBracketedContent`: consume
until the count returns to zero; `none` when the input ends first. -/
def bracketInner : List Char → Nat → Option (List Char)
  | [], _ => none
  | c :: rest, k =>
      if c = ']' then
        if k = 1 then some []
        else (bracketInner rest (k - 1)).map (fun cs => c :: cs)
      else if c = '[' then (bracketInner rest (k + 1)).map (fun cs => c :: cs)
      else (bracketInner rest k).map (fun cs => c :: cs)

/-- `extractBracketedContent(ednString, key)`: find `key\s*\[`, then
take the content up to the matching close bracket (nesting-aware);
`null` when the key is absent or the brackets never balance. -/
def extractBracketedContent (ednString : String) (key : String) :
    Option String :=
  match searchFirst (tryKeyWsStarBracket key.data) ednString.data with
  | none => none
  | some r2 => (bracketInner r2 1).map (fun cs => (⟨cs⟩ : String))

/-- The comment-stripping `replace(/;.*$/gm, '')` of `parseEdn`: from
each `;` to the end of its line. -/
def stripCommentsAux : List Char → Bool → List Char
  | [], _ => []
  | c :: rest, true =>
      if c = '\n' ∨ c = '\r' then c :: stripCommentsAux rest false
      else stripCommentsAux rest true
  | c :: rest, false =>
      if c = ';' then stripCommentsAux rest true
      else c :: stripCommentsAux rest false

/-- Remove line comments (`;` to end of line). -/
def stripComments (s : String) : String := ⟨stripCommentsAux s.data false⟩

/-- The brace-chunking loop shared by `parseV3Transitions` and
`parseV3Actions`: an `Int` counter (the source decrements below zero on
stray `}`), a chunk being accumulated once a `{` is seen at count zero,
emitted when the count returns to zero. -/
def braceChunksGo : List Char → Int → Option (List Char) → List String
  | [], _, _ => []
  | c :: rest, count, cur =>
      if c = '\x7b' then
        let cur' := if count = 0 then some [c] else cur.map (fun cs => cs ++ [c])
        braceChunksGo rest (count + 1) cur'
      else if c = '\x7d' then
        if count - 1 = 0 then
          match cur with
          | some chunk => (⟨chunk ++ [c]⟩ : String) :: braceChunksGo rest (count - 1) none
          | none => braceChunksGo rest (count - 1) none
        else braceChunksGo rest (count - 1) (cur.map (fun cs => cs ++ [c]))
      else braceChunksGo rest count (cur.map (fun cs => cs ++ [c]))

/-- Top-level `{...}` chunks of a vector body. -/
def braceChunks (l : List Char) : List String := braceChunksGo l 0 none

/-- `split(/(?=\s*lit)/)`: split before every position (other than the
start) at which skipping whitespace lands on the literal `lit`. `lit`
begins with `{`, which is not whitespace, so the lookahead matches at a
position exactly when the whitespace run from it is followed by `lit`. -/
def lookSplitGo (lit : List Char) (cur : List Char) : List Char → List (List Char)
  | [] => [cur]
  | c :: rest =>
      if cur ≠ [] ∧ listStartsWith ((c :: rest).dropWhile isWsChar) lit then
        cur :: lookSplitGo lit [c] rest
      else lookSplitGo lit (cur ++ [c]) rest

/-- Split a string by a zero-width lookahead pattern. -/
def lookSplit (lit : List Char) (l : List Char) : List String :=
  (lookSplitGo lit [] l).map (fun cs => (⟨cs⟩ : String))

/-! ### Data model (the TS interfaces of `edn-parser.ts`)

Field-name mapping: Lean cannot use `process/id`-style names or the
keywords `from`/`to`, so `'process/id' ↦ processId`,
`'process/states' ↦ processStates`,
`'process/transitions' ↦ processTransitions`, `from ↦ fromS`,
`to ↦ toS`, `on ↦ onS`; everything else keeps its source name. -/

/-- `'transition/from'`: a single keyword or a `#{...}` set. -/
inductive V2From where
  | single : String → V2From
  | multi : List String → V2From
deriving DecidableEq

/-- `TransitionDefinition` (v2). `'transition/actions'` and
`'transition/notifications'` are optional in the source interface. -/
structure V2Transition where
  id : String
  fromS : V2From
  toS : String
  actor : String
  actions : Option (List String)
  notifications : Option (List String)
deriving DecidableEq

/-- One entry of a v3 `:actions` vector; `config` holds the extracted
`:type` when present. -/
structure V3Action where
  name : String
  config : Option String
deriving DecidableEq

/-- `V3TransitionDefinition`. `parseV3Transition` only ever sets `name`,
`actor`, `actions`, `to` and `from`, so the unused `at`/`privileged?`
fields are omitted. -/
structure V3Transition where
  name : String
  actor : Option String
  actions : Option (List V3Action)
  toS : Option String
  fromS : Option String
deriving DecidableEq

/-- `V3NotificationDefinition`; `parseV3Notification` sets `on`, `to`
and `template` only when their patterns match, so they are optional
here. -/
structure V3Notification where
  name : String
  onS : Option String
  toS : Option String
  template : Option String
deriving DecidableEq

/-- `TransactionProcess`: every field of the source interface is
optional. -/
structure TransactionProcess where
  processId : Option String
  processStates : Option (List String)
  processTransitions : Option (List V2Transition)
  format : Option String
  transitions : Option (List V3Transition)
  notifications : Option (List V3Notification)
deriving DecidableEq

/-! ### The parser (`edn-parser.ts`) -/

/-- `parseV3Actions`: brace-chunk the actions body; keep a chunk only
when its `:name` matches (no error is thrown for a nameless chunk);
strip the `action/` namespace; extract `:config`'s `:type` when both
match. -/
def parseV3Actions (actionsContent : String) : List V3Action :=
  (braceChunks actionsContent.data).filterMap (fun actionText =>
    match searchFirst (tryKeyColonCapture ":name".data braceStop) actionText.data with
    | none => none
    | some nm =>
        let config :=
          match searchFirst (tryConfigBrace ":config".data) actionText.data with
          | none => none
          | some inner =>
              searchFirst (tryKeyColonCapture ":type".data braceStop) inner.data
        some { name := stripPre "action/" nm, config := config })

/-- `parseV3Transition`: `:name` is mandatory; `:actor` (stripped of
`actor.role/`), `:to` and `:from` (stripped of `state/`) and `:actions`
are optional. An empty actions capture is falsy in JS, so it leaves
`actions` unset. -/
def parseV3Transition (transitionText : String) : Except String V3Transition :=
  match searchFirst (tryKeyColonCapture ":name".data commaStop) transitionText.data with
  | none => Except.error "Missing transition name"
  | some nm =>
      let actor := (searchFirst (tryKeyColonCapture ":actor".data commaStop)
        transitionText.data).map (stripPre "actor.role/")
      let toF := (searchFirst (tryKeyColonCapture ":to".data braceStop)
        transitionText.data).map (stripPre "state/")
      let fromF := (searchFirst (tryKeyColonCapture ":from".data braceStop)
        transitionText.data).map (stripPre "state/")
      let actions :=
        match extractBracketedContent transitionText ":actions" with
        | none => none
        | some ac => if ac = "" then none else some (parseV3Actions ac)
      Except.ok { name := nm, actor := actor, actions := actions,
                  toS := toF, fromS := fromF }

/-- `parseV3Transitions`: brace-chunk the transitions body and keep the
chunks that parse; a chunk that fails is skipped (`console.warn`). -/
def parseV3Transitions (transitionsContent : String) : List V3Transition :=
  (braceChunks transitionsContent.data).filterMap (fun t =>
    match parseV3Transition t with
    | Except.ok tr => some tr
    | Except.error _ => none)

/-- `parseV3Notification`: `:name` is mandatory, the rest optional. -/
def parseV3Notification (notificationText : String) :
    Except String V3Notification :=
  match searchFirst (tryKeyColonCapture ":name".data commaStop) notificationText.data with
  | none => Except.error "Missing notification name"
  | some nm =>
      Except.ok
        { name := nm,
          onS := searchFirst (tryKeyColonCapture ":on".data commaStop) notificationText.data,
          toS := searchFirst (tryKeyColonCapture ":to".data commaStop) notificationText.data,
          template := searchFirst (tryKeyColonCapture ":template".data braceStop) notificationText.data }

/-- `parseV3Notifications`: split before each `{:name`, skip blank or
nameless pieces, skip pieces that fail to parse. -/
def parseV3Notifications (notificationsContent : String) : List V3Notification :=
  (lookSplit "\x7b:name".data notificationsContent.data).filterMap (fun t =>
    if jsTrim t = "" ∨ ¬ containsSub t ":name" then none
    else
      match parseV3Notification t with
      | Except.ok n => some n
      | Except.error _ => none)

/-- `parseTransition` (v2): `:transition/id`, `:transition/from`,
`:transition/to` and `:transition/actor` are mandatory — each missing
one throws; `from` may be a `#{...}` set, whose members are the
colon-prefixed whitespace-separated tokens; actions and notifications
are optional vectors with their namespaces stripped. -/
def parseTransition (transitionText : String) : Except String V2Transition :=
  match searchFirst (tryKeyColonCapture ":transition/id".data ednNameStop) transitionText.data with
  | none => Except.error "Missing transition ID"
  | some tid =>
  match searchFirst (tryV2From ":transition/from".data) transitionText.data with
  | none => Except.error "Missing transition from"
  | some fromContent =>
      let fromV : V2From :=
        if listStartsWith fromContent.data ['#', '\x7b'] then
          V2From.multi ((splitWsTokens ((fromContent.data.drop 2).dropLast)).filterMap
            (fun tok =>
              if listStartsWith tok.data [':'] then some (⟨tok.data.drop 1⟩ : String)
              else none))
        else V2From.single ⟨fromContent.data.drop 1⟩
  match searchFirst (tryKeyColonCapture ":transition/to".data ednNameStop) transitionText.data with
  | none => Except.error "Missing transition to"
  | some toV =>
  match searchFirst (tryKeyColonCapture ":transition/actor".data ednNameStop) transitionText.data with
  | none => Except.error "Missing transition actor"
  | some actorV =>
      let actions := (searchFirst (tryKeyBracketSimple ":transition/actions".data)
          transitionText.data).map (fun content =>
        (splitWsTokens content.data).filterMap (fun tok =>
          if listStartsWith tok.data [':'] then
            some (stripPre "action/" ⟨tok.data.drop 1⟩)
          else none))
      let notifs := (searchFirst (tryKeyBracketSimple ":transition/notifications".data)
          transitionText.data).map (fun content =>
        (splitWsTokens content.data).filterMap (fun tok =>
          if listStartsWith tok.data [':'] then
            some (stripPre "notification/" ⟨tok.data.drop 1⟩)
          else none))
      Except.ok { id := tid, fromS := fromV, toS := toV, actor := actorV,
                  actions := actions, notifications := notifs }

/-- `parseTransitions` (v2): split before each `{:transition/id`; skip
blank pieces and pieces without the id key; a piece whose
`parseTransition` throws is skipped (`console.warn`) and parsing
continues — no error escapes this function. -/
def parseTransitions (transitionsContent : String) : List V2Transition :=
  (lookSplit "\x7b:transition/id".data transitionsContent.data).filterMap (fun t =>
    if jsTrim t = "" ∨ ¬ containsSub t ":transition/id" then none
    else
      match parseTransition t with
      | Except.ok tr => some tr
      | Except.error _ => none)

/-- `parseV2Format`: process id, states set and transitions vector are
each mandatory; the transitions vector is captured greedily up to the
last `]` of the document. -/
def parseV2Format (cleanEdn : String) : Except String TransactionProcess :=
  match searchFirst (tryKeyColonCapture ":process/id".data ednNameStop) cleanEdn.data with
  | none => Except.error "Missing or invalid :process/id"
  | some pid =>
  match searchFirst (tryKeyHashBrace ":process/states".data) cleanEdn.data with
  | none => Except.error "Missing or invalid :process/states"
  | some statesContent =>
      let states := (splitWsTokens statesContent.data).filterMap (fun tok =>
        if listStartsWith tok.data [':'] then some (⟨tok.data.drop 1⟩ : String)
        else none)
  match searchFirst (tryKeyBracketGreedy ":process/transitions".data) cleanEdn.data with
  | none => Except.error "Missing or invalid :process/transitions"
  | some transitionsContent =>
      Except.ok { processId := some pid, processStates := some states,
                  processTransitions := some (parseTransitions transitionsContent),
                  format := none, transitions := none, notifications := none }

/-- `parseV3Format`: the `:transitions` body is mandatory and must be
truthy (an empty capture is falsy in JS and also throws); the
`:notifications` body is optional and likewise used only when truthy. -/
def parseV3Format (cleanEdn : String) : Except String TransactionProcess :=
  match extractBracketedContent cleanEdn ":transitions" with
  | none => Except.error "Missing or invalid :transitions"
  | some transitionsContent =>
      if transitionsContent = "" then
        Except.error "Missing or invalid :transitions"
      else
        let notifs :=
          match extractBracketedContent cleanEdn ":notifications" with
          | none => []
          | some nc => if nc = "" then [] else parseV3Notifications nc
        Except.ok { processId := none, processStates := none,
                    processTransitions := none, format := some "v3",
                    transitions := some (parseV3Transitions transitionsContent),
                    notifications := some notifs }

/-- `parseEdn`: strip comments, then dispatch — the v3 path whenever the
cleaned text contains `:format :v3` anywhere, else the v2 path when it
contains both `:process/id` and `:process/states`, else an error. The
surrounding `try/catch` rethrows every `Error` unchanged. -/
def parseEdn (ednString : String) : Except String TransactionProcess :=
  let cleanEdn := stripComments ednString
  if containsSub cleanEdn ":format :v3" then parseV3Format cleanEdn
  else if containsSub cleanEdn ":process/id" && containsSub cleanEdn ":process/states" then
    parseV2Format cleanEdn
  else
    Except.error "Unrecognized EDN format. Please provide a valid Sharetribe transaction process."

/-! ### Graph generator (`graph-generator` module) -/

/-- `ACTOR_COLORS` object: own properties, in declaration order. -/
def ACTOR_COLORS : List (String × String) :=
  [("customer", "#F97316"), ("provider", "#EC4899"),
   ("operator", "#10B981"), ("system", "#6B7280"),
   ("default", "#6B7280")]

/-- Own-property lookup on a string-keyed object literal. -/
def lookupStr : List (String × String) → String → Option String
  | [], _ => none
  | (k, v) :: rest, key => if k = key then some v else lookupStr rest key

/-- A JS value read off a plain object by bracket access: either a
string (an own data property of the literal) or a member inherited from
`Object.prototype` — a function, or `Object.prototype` itself for
`__proto__`. The inherited value is represented by the property name it
was found under: only its truthiness and its not being a string matter
to this program. -/
inductive JsValue where
  | str : String → JsValue
  | obj : String → JsValue
deriving DecidableEq

/-- The property names of `Object.prototype` in the target runtime
(standard members plus the Annex B accessors present in browsers and
Node). A plain object literal inherits all of them. -/
def objectProtoMembers : List String :=
  ["constructor", "hasOwnProperty", "isPrototypeOf",
   "propertyIsEnumerable", "toLocaleString", "toString", "valueOf",
   "__proto__", "__defineGetter__", "__defineSetter__",
   "__lookupGetter__", "__lookupSetter__"]

/-- JS bracket access `obj[key]` on a string-valued object literal: an
own property first, otherwise the prototype chain — `Object.prototype`
for a plain literal — otherwise `undefined`. -/
def jsPropAccess (own : List (String × String)) (key : String) :
    Option JsValue :=
  match lookupStr own key with
  | some v => some (JsValue.str v)
  | none =>
      if key ∈ objectProtoMembers then some (JsValue.obj key) else none

/-- JS `value || dflt` on a looked-up property: `undefined` and the
empty string are falsy; every other string and every inherited
function/object is truthy and returned as-is. -/
def jsOrVal (v : Option JsValue) (dflt : String) : JsValue :=
  match v with
  | none => JsValue.str dflt
  | some (JsValue.str s) => if s = "" then JsValue.str dflt else JsValue.str s
  | some v => v

/-- `getActorColor`: lower-case, strip `actor.role/`, then
`ACTOR_COLORS[normalizedActor] || ACTOR_COLORS.default`. The bracket
access finds inherited `Object.prototype` members too, so a normalized
actor such as `constructor` or `__proto__` yields the inherited
function/object (truthy — the `||` fallback never fires), not a color
string. -/
def getActorColor (actor : String) : JsValue :=
  let normalizedActor := stripPre "actor.role/" (toLowerJs actor)
  jsOrVal (jsPropAccess ACTOR_COLORS normalizedActor) "#6B7280"

/-- A ReactFlow node as the generator builds it: `id`, computed
`position`, and `data.label` (the constant styling object is not
modelled). `y` is an `ENum` because the v2 layout can produce
`-Infinity`. -/
structure GNode where
  id : String
  x : Int
  y : ENum
  label : String
deriving DecidableEq

/-- A ReactFlow edge as the generator builds it: `id`, endpoints,
`label`, `style.stroke`, and the `data` payload (constant styling is
not modelled). -/
structure GEdge where
  id : String
  source : String
  target : String
  label : String
  stroke : JsValue
  transitionId : String
  actor : String
  actions : List String
  notifications : List String
  fromS : String
  toS : String
deriving DecidableEq

/-- `GraphData`. -/
structure GraphData where
  nodes : List GNode
  edges : List GEdge
deriving DecidableEq

/-- `formatStateLabel`: the identity (states are kept as-is). -/
def formatStateLabel (state : String) : String := state

/-- `replace(/([A-Z])/g, '-$1')` followed by `toLowerCase`. -/
def kebabOf (s : String) : String :=
  toLowerJs ⟨s.data.foldr (fun c acc => if c.isUpper then '-' :: c :: acc else c :: acc) []⟩

/-- `formatTransitionLabel` (v2): strip `transition/`, kebab-case. -/
def formatTransitionLabel (transition : V2Transition) : String :=
  kebabOf (stripPre "transition/" transition.id)

/-- `formatV3TransitionLabel`: strip `transition/`, kebab-case. -/
def formatV3TransitionLabel (transition : V3Transition) : String :=
  kebabOf (stripPre "transition/" transition.name)

/-- `transition.from || 'initial'` (v3): `undefined` and `""` fall back
to the synthetic start state. -/
def jsFromOr (t : V3Transition) : String := jsOrStr t.fromS "initial"

/-! ### Layout engine

Both position functions run a BFS over the transition relation with a
work queue, a visited set and a `levels` map. The loop is embedded with
explicit fuel: every enqueue after the seeds inserts a fresh key into
`levels` (the push is guarded by `!levels.has(...)` and the key is set
in the same step), so the number of loop iterations is at most the seed
count plus the number of transitions, and the fuel passed below always
exceeds that — the embedded loop performs exactly the iterations the
JS loop does. The `children` map `getImprovedTreePosition` builds is
never read by the source, so it is not modelled. -/

/-- One step of the v3 BFS inner `forEach`: a transition whose truthy
`to` has no level yet gets `currentLevel + 1` and is enqueued. -/
def v3BfsStep (currentLevel : ENum)
    (acc : List (String × ENum) × List String) (t : V3Transition) :
    List (String × ENum) × List String :=
  match t.toS with
  | none => acc
  | some toV =>
      if toV = "" then acc
      else if (lookupAssoc acc.1 toV).isSome then acc
      else (mapSet acc.1 toV (currentLevel.addC 1), acc.2 ++ [toV])

/-- The v3 BFS loop (`while (queue.length > 0)`). -/
def v3BfsLoop (transitions : List V3Transition) :
    Nat → List String → List String → List (String × ENum) →
    List (String × ENum)
  | 0, _, _, levels => levels
  | _ + 1, [], _, levels => levels
  | fuel + 1, cur :: queue, visited, levels =>
      if cur ∈ visited then v3BfsLoop transitions fuel queue visited levels
      else
        let currentLevel := jsOr0 (lookupAssoc levels cur)
        let outgoing := transitions.filter (fun t => jsFromOr t = cur)
        let res := outgoing.foldl (v3BfsStep currentLevel) (levels, [])
        v3BfsLoop transitions fuel (queue ++ res.2) (visited ++ [cur]) res.1

/-- The v3 level map after BFS from the seeded `initial ↦ 0`. -/
def v3Levels (transitions : List V3Transition) : List (String × ENum) :=
  v3BfsLoop transitions (transitions.length + 2) ["initial"] []
    [("initial", ENum.int 0)]

/-- The v3 level map after the not-found fallback for `state`:
`Math.max(...levels.values()) + 1` (which is `-Infinity + 1` on an
empty map — here the map always holds `initial`). -/
def v3LevelsFor (state : String) (transitions : List V3Transition) :
    List (String × ENum) :=
  let levels := v3Levels transitions
  if (lookupAssoc levels state).isSome then levels
  else mapSet levels state ((enumMaxList (mapValues levels)).addC 1)

/-- The layer `getImprovedTreePosition` assigns to `state`
(`levels.get(state) || 0`). -/
def v3Level (state : String) (transitions : List V3Transition) : ENum :=
  jsOr0 (lookupAssoc (v3LevelsFor state transitions) state)

/-- The states sharing `state`'s layer, in `states` order
(`levels.get(s) === level`). -/
def v3StatesAtLevel (state : String) (transitions : List V3Transition)
    (states : List String) : List String :=
  let levels := v3LevelsFor state transitions
  let level := jsOr0 (lookupAssoc levels state)
  states.filter (fun s => decide (lookupAssoc levels s = some level))

/-- `getImprovedTreePosition` (v3): horizontal spacing 280 centered via
`baseX = 400 - totalWidth / 2` (the division is exact: the dividend is
even), vertical spacing 180 with base 100. -/
def getImprovedTreePosition (state : String)
    (transitions : List V3Transition) (states : List String) : Int × ENum :=
  let level := v3Level state transitions
  let statesAtLevel := v3StatesAtLevel state transitions states
  let positionInLevel := jsIndexOf statesAtLevel state
  let totalWidth : Int := ((statesAtLevel.length : Int) - 1) * 280
  let baseX : Int := 400 - totalWidth / 2
  (positionInLevel * 280 + baseX, (level.scale 180).addC 100)

/-- `'transition/from'` as the array the v2 generator iterates
(`Array.isArray ? it : [it]`). -/
def v2FromList (t : V2Transition) : List String :=
  match t.fromS with
  | V2From.single s => [s]
  | V2From.multi ss => ss

/-- One step of the v2 BFS inner `forEach`: a target without a level
gets `currentLevel + 1` and is enqueued (no truthiness check here). -/
def v2BfsStep (currentLevel : ENum)
    (acc : List (String × ENum) × List String) (t : V2Transition) :
    List (String × ENum) × List String :=
  if (lookupAssoc acc.1 t.toS).isSome then acc
  else (mapSet acc.1 t.toS (currentLevel.addC 1), acc.2 ++ [t.toS])

/-- The v2 BFS loop. -/
def v2BfsLoop (transitions : List V2Transition) :
    Nat → List String → List String → List (String × ENum) →
    List (String × ENum)
  | 0, _, _, levels => levels
  | _ + 1, [], _, levels => levels
  | fuel + 1, cur :: queue, visited, levels =>
      if cur ∈ visited then v2BfsLoop transitions fuel queue visited levels
      else
        let currentLevel := jsOr0 (lookupAssoc levels cur)
        let outgoing := transitions.filter (fun t => decide (cur ∈ v2FromList t))
        let res := outgoing.foldl (v2BfsStep currentLevel) (levels, [])
        v2BfsLoop transitions fuel (queue ++ res.2) (visited ++ [cur]) res.1

/-- The v2 level map: roots are the declared states that are never a
transition target; they seed level 0 and the BFS runs from them. -/
def v2Levels (transitions : List V2Transition) (states : List String) :
    List (String × ENum) :=
  let targetStates := transitions.map (fun t => t.toS)
  let rootStates := states.filter (fun s => decide (s ∉ targetStates))
  let levels0 := rootStates.foldl (fun m r => mapSet m r (ENum.int 0)) []
  v2BfsLoop transitions (rootStates.length + transitions.length + 2)
    rootStates [] levels0

/-- The v2 level map after the not-found fallback for `state`: on a
rootless model (every state is some transition's target) the map is
empty and `Math.max(...[])` is `-Infinity`. -/
def v2LevelsFor (state : String) (transitions : List V2Transition)
    (states : List String) : List (String × ENum) :=
  let levels := v2Levels transitions states
  if (lookupAssoc levels state).isSome then levels
  else mapSet levels state ((enumMaxList (mapValues levels)).addC 1)

/-- The layer `getVerticalTreePositionV2` assigns to `state`. -/
def v2Level (state : String) (transitions : List V2Transition)
    (states : List String) : ENum :=
  jsOr0 (lookupAssoc (v2LevelsFor state transitions states) state)

/-- The states sharing `state`'s layer, in `states` order (v2). -/
def v2StatesAtLevel (state : String) (transitions : List V2Transition)
    (states : List String) : List String :=
  let levels := v2LevelsFor state transitions states
  let level := jsOr0 (lookupAssoc levels state)
  states.filter (fun s => decide (lookupAssoc levels s = some level))

/-- `getVerticalTreePositionV2` (v2): `x = index * 250 + 100`,
`y = level * 150 + 50`. -/
def getVerticalTreePositionV2 (state : String)
    (transitions : List V2Transition) (states : List String) : Int × ENum :=
  let level := v2Level state transitions states
  let statesAtLevel := v2StatesAtLevel state transitions states
  let positionInLevel := jsIndexOf statesAtLevel state
  (positionInLevel * 250 + 100, (level.scale 150).addC 50)

/-- The edges `generateV3GraphData` emits for the transition at index
`transitionIndex`: none when `to` is falsy, otherwise one edge from
`from || 'initial'`, with actor defaulted to `system` for the stroke and
the data payload, id `name-index`, and an always-empty notification
list. -/
def v3EdgesForTransition (transitionIndex : Nat) (t : V3Transition) :
    List GEdge :=
  let fromState := jsFromOr t
  match t.toS with
  | none => []
  | some toState =>
      if toState = "" then []
      else
        [{ id := t.name ++ "-" ++ Nat.repr transitionIndex,
           source := fromState, target := toState,
           label := formatV3TransitionLabel t,
           stroke := getActorColor (jsOrStr t.actor "system"),
           transitionId := t.name,
           actor := jsOrStr t.actor "system",
           actions := match t.actions with
             | none => []
             | some acts => acts.map V3Action.name,
           notifications := [],
           fromS := fromState, toS := toState }]

/-- One step of the state-collecting `forEach` of `generateV3GraphData`:
add the truthy `from`, then the truthy `to`. -/
def v3StateAdd (acc : List String) (t : V3Transition) : List String :=
  let acc1 := match t.fromS with
    | some s => if s = "" then acc else insertUniq acc s
    | none => acc
  match t.toS with
  | some s => if s = "" then acc1 else insertUniq acc1 s
  | none => acc1

/-- The node-id set of `generateV3GraphData`: `initial` when some
transition has a falsy `from`, then every truthy `from` and `to`, in
insertion order without duplicates. -/
def v3States (transitions : List V3Transition) : List String :=
  let initialTransitions := transitions.filter (fun t => ¬ jsTruthyStr t.fromS)
  let base : List String := if initialTransitions.length > 0 then ["initial"] else []
  transitions.foldl v3StateAdd base

/-- `generateV3GraphData`. -/
def generateV3GraphData (processData : TransactionProcess) : GraphData :=
  let transitions := processData.transitions.getD []
  let states := v3States transitions
  { nodes := states.map (fun state =>
      let pos := getImprovedTreePosition state transitions states
      { id := state, x := pos.1, y := pos.2, label := formatStateLabel state }),
    edges := (transitions.enum).flatMap (fun p => v3EdgesForTransition p.1 p.2) }

/-- The edges `generateV2GraphData` emits for one transition: one per
from-state, id `transitionId-fromIndex`, identical payload except the
source. The transition index of the outer `forEach` is unused by the
source. -/
def v2EdgesForTransition (t : V2Transition) : List GEdge :=
  (v2FromList t).enum.map (fun p =>
    { id := t.id ++ "-" ++ Nat.repr p.1,
      source := p.2, target := t.toS,
      label := formatTransitionLabel t,
      stroke := getActorColor (jsOrStr (some t.actor) "system"),
      transitionId := t.id,
      actor := t.actor,
      actions := t.actions.getD [],
      notifications := t.notifications.getD [],
      fromS := p.2, toS := t.toS })

/-- `generateV2GraphData`: nodes are exactly the declared states. -/
def generateV2GraphData (processData : TransactionProcess) : GraphData :=
  let states := processData.processStates.getD []
  let transitions := processData.processTransitions.getD []
  { nodes := states.map (fun state =>
      let pos := getVerticalTreePositionV2 state transitions states
      { id := state, x := pos.1, y := pos.2, label := formatStateLabel state }),
    edges := transitions.flatMap v2EdgesForTransition }

/-- `generateGraphData`: dispatch on `format === 'v3'`. -/
def generateGraphData (processData : TransactionProcess) : GraphData :=
  if processData.format = some "v3" then generateV3GraphData processData
  else generateV2GraphData processData

/-! ### Helper lemmas

First, injectivity of `Nat.repr` (JS number-to-string in the edge ids),
proved by reading the digit string back; then small membership and
lookup lemmas about the container embeddings. -/

/-- Numeric value of a decimal digit character. -/
def digitVal (c : Char) : Nat := c.toNat - 48

/-- Read a digit string back into a number. -/
def valOfDigits (l : List Char) : Nat :=
  l.foldl (fun a c => a * 10 + digitVal c) 0

theorem toDigitsCore_shift (f : Nat) : ∀ (n : Nat) (ds : List Char),
    Nat.toDigitsCore 10 f n ds = Nat.toDigitsCore 10 f n [] ++ ds := by
  induction f with
  | zero => intro n ds; simp [Nat.toDigitsCore]
  | succ f ih =>
      intro n ds
      simp only [Nat.toDigitsCore]
      by_cases h : n / 10 = 0
      · simp [h]
      · simp only [if_neg h]
        rw [ih (n / 10) (Nat.digitChar (n % 10) :: ds),
          ih (n / 10) [Nat.digitChar (n % 10)]]
        simp

theorem toDigitsCore_fuel : ∀ (n f₁ f₂ : Nat) (ds : List Char),
    n < f₁ → n < f₂ →
    Nat.toDigitsCore 10 f₁ n ds = Nat.toDigitsCore 10 f₂ n ds := by
  intro n
  induction n using Nat.strong_induction_on with
  | _ n ih =>
    intro f₁ f₂ ds h₁ h₂
    obtain ⟨g₁, rfl⟩ : ∃ g, f₁ = g + 1 := ⟨f₁ - 1, by omega⟩
    obtain ⟨g₂, rfl⟩ : ∃ g, f₂ = g + 1 := ⟨f₂ - 1, by omega⟩
    simp only [Nat.toDigitsCore]
    by_cases h : n / 10 = 0
    · simp [h]
    · simp only [if_neg h]
      have hn : 0 < n := by
        rcases Nat.eq_zero_or_pos n with h0 | h0
        · exact absurd (by simp [h0]) h
        · exact h0
      have hlt : n / 10 < n := Nat.div_lt_self hn (by norm_num)
      exact ih (n / 10) hlt _ _ _ (by omega) (by omega)

theorem digitVal_digitChar (m : Nat) (h : m < 10) :
    digitVal (Nat.digitChar m) = m := by
  interval_cases m <;> rfl

theorem valOfDigits_append_one (l : List Char) (c : Char) :
    valOfDigits (l ++ [c]) = valOfDigits l * 10 + digitVal c := by
  simp [valOfDigits, List.foldl_append]

theorem valOfDigits_toDigits : ∀ n : Nat,
    valOfDigits (Nat.toDigits 10 n) = n := by
  intro n
  induction n using Nat.strong_induction_on with
  | _ n ih =>
    unfold Nat.toDigits
    simp only [Nat.toDigitsCore]
    by_cases h : n / 10 = 0
    · have hn : n < 10 := (Nat.div_eq_zero_iff (by norm_num)).1 h
      have : n % 10 = n := Nat.mod_eq_of_lt hn
      simp [h, valOfDigits, this, digitVal_digitChar n hn]
    · simp only [if_neg h]
      have hn : 0 < n := by
        rcases Nat.eq_zero_or_pos n with h0 | h0
        · exact absurd (by simp [h0]) h
        · exact h0
      have hlt : n / 10 < n := Nat.div_lt_self hn (by norm_num)
      rw [toDigitsCore_shift n (n / 10) [Nat.digitChar (n % 10)],
        toDigitsCore_fuel (n / 10) n (n / 10 + 1) [] (by omega) (by omega)]
      rw [valOfDigits_append_one]
      have := ih (n / 10) hlt
      unfold Nat.toDigits at this
      rw [this, digitVal_digitChar (n % 10) (Nat.mod_lt n (by norm_num))]
      omega

theorem natRepr_injective : Function.Injective Nat.repr := by
  intro m n h
  have hd : Nat.toDigits 10 m = Nat.toDigits 10 n := by
    have h2 := congrArg String.data h
    simpa [Nat.repr, List.asString] using h2
  have h3 := valOfDigits_toDigits m
  rw [hd, valOfDigits_toDigits n] at h3
  exact h3.symm

theorem dashRepr_injective (a : String) :
    Function.Injective (fun i : Nat => a ++ "-" ++ Nat.repr i) := by
  intro i j h
  apply natRepr_injective
  apply String.ext
  have h2 := congrArg String.data h
  simp only [String.data_append] at h2
  exact List.append_cancel_left h2

theorem mem_insertUniq {l : List String} {s a : String} :
    a ∈ insertUniq l s ↔ a ∈ l ∨ a = s := by
  unfold insertUniq
  by_cases h : s ∈ l
  · simp only [if_pos h]
    constructor
    · exact Or.inl
    · rintro (ha | rfl)
      · exact ha
      · exact h
  · simp [if_neg h]

theorem mem_insertUniq_self {l : List String} {s : String} :
    s ∈ insertUniq l s :=
  mem_insertUniq.2 (Or.inr rfl)

theorem mem_if_insertUniq {acc : List String} {a s : String} {c : Prop}
    [Decidable c] (h : a ∈ acc) :
    a ∈ (if c then acc else insertUniq acc s) := by
  split_ifs
  · exact h
  · exact mem_insertUniq.2 (Or.inl h)

theorem mem_v3StateAdd_of_mem {acc : List String} {t : V3Transition}
    {a : String} (h : a ∈ acc) : a ∈ v3StateAdd acc t := by
  unfold v3StateAdd
  rcases t.fromS with _ | s <;> rcases t.toS with _ | s'
  · exact h
  · exact mem_if_insertUniq h
  · exact mem_if_insertUniq h
  · exact mem_if_insertUniq (mem_if_insertUniq h)

theorem mem_if_insertUniq_self {acc : List String} {s : String}
    (hs : s ≠ "") : s ∈ (if s = "" then acc else insertUniq acc s) := by
  rw [if_neg hs]
  exact mem_insertUniq_self

theorem mem_v3StateAdd_from {acc : List String} {t : V3Transition}
    {s : String} (hf : t.fromS = some s) (hs : s ≠ "") :
    s ∈ v3StateAdd acc t := by
  unfold v3StateAdd
  rw [hf]
  rcases t.toS with _ | s'
  · exact mem_if_insertUniq_self hs
  · exact mem_if_insertUniq (mem_if_insertUniq_self hs)

theorem mem_v3StateAdd_to {acc : List String} {t : V3Transition}
    {s : String} (ht : t.toS = some s) (hs : s ≠ "") :
    s ∈ v3StateAdd acc t := by
  unfold v3StateAdd
  rw [ht]
  exact mem_if_insertUniq_self hs

theorem mem_foldl_v3StateAdd_of_mem {l : List V3Transition}
    {acc : List String} {a : String} (h : a ∈ acc) :
    a ∈ List.foldl v3StateAdd acc l := by
  induction l generalizing acc with
  | nil => exact h
  | cons hd tl ih =>
      rw [List.foldl_cons]
      exact ih (mem_v3StateAdd_of_mem h)

theorem mem_foldl_v3StateAdd_of_elem {l : List V3Transition}
    {acc : List String} {a : String} {t : V3Transition} (hl : t ∈ l)
    (h : ∀ acc' : List String, a ∈ v3StateAdd acc' t) :
    a ∈ List.foldl v3StateAdd acc l := by
  induction l generalizing acc with
  | nil => cases hl
  | cons hd tl ih =>
      rw [List.foldl_cons]
      rcases List.mem_cons.1 hl with rfl | hmem
      · exact mem_foldl_v3StateAdd_of_mem (h acc)
      · exact ih hmem

theorem lookupAssoc_mapSet (m : List (String × ENum)) (k k' : String)
    (v : ENum) :
    lookupAssoc (mapSet m k v) k' =
      if k' = k then some v else lookupAssoc m k' := by
  induction m with
  | nil =>
      simp only [mapSet, lookupAssoc]
      by_cases h : k = k'
      · subst h
        simp
      · rw [if_neg h, if_neg (fun hh : k' = k => h hh.symm)]
  | cons hd tl ih =>
      obtain ⟨k₀, v₀⟩ := hd
      simp only [mapSet]
      by_cases h0 : k₀ = k
      · subst h0
        simp only [if_pos rfl, lookupAssoc]
        by_cases h1 : k₀ = k'
        · rw [if_pos h1, if_pos h1.symm]
        · rw [if_neg h1, if_neg (fun hh : k' = k₀ => h1 hh.symm), if_neg h1]
      · rw [if_neg h0]
        simp only [lookupAssoc]
        by_cases h1 : k₀ = k'
        · have hk : ¬ k' = k := fun hh => h0 (h1.trans hh)
          rw [if_pos h1, if_neg hk, if_pos h1]
        · rw [if_neg h1, ih, if_neg h1]

theorem lookupAssoc_v3BfsStep {cl : ENum}
    {acc : List (String × ENum) × List String} {t : V3Transition}
    {key : String} {v : ENum} (h : lookupAssoc acc.1 key = some v) :
    lookupAssoc (v3BfsStep cl acc t).1 key = some v := by
  unfold v3BfsStep
  split
  · exact h
  · rename_i toV heq
    split_ifs with h1 h2
    · exact h
    · exact h
    · have hne : key ≠ toV := by
        intro hh
        subst hh
        rw [h] at h2
        exact h2 rfl
      show lookupAssoc (mapSet acc.1 toV (ENum.addC 1 cl)) key = some v
      rw [lookupAssoc_mapSet, if_neg hne]
      exact h

theorem lookupAssoc_foldl_v3BfsStep {cl : ENum} {l : List V3Transition}
    {acc : List (String × ENum) × List String} {key : String} {v : ENum}
    (h : lookupAssoc acc.1 key = some v) :
    lookupAssoc (l.foldl (v3BfsStep cl) acc).1 key = some v := by
  induction l generalizing acc with
  | nil => exact h
  | cons hd tl ih =>
      rw [List.foldl_cons]
      exact ih (lookupAssoc_v3BfsStep h)

theorem lookupAssoc_v3BfsLoop {ts : List V3Transition} :
    ∀ (fuel : Nat) (queue visited : List String)
      (levels : List (String × ENum)) {key : String} {v : ENum},
      lookupAssoc levels key = some v →
      lookupAssoc (v3BfsLoop ts fuel queue visited levels) key = some v := by
  intro fuel
  induction fuel with
  | zero =>
      intro queue visited levels key v h
      simpa [v3BfsLoop] using h
  | succ fuel ih =>
      intro queue visited levels key v h
      cases queue with
      | nil => simpa [v3BfsLoop] using h
      | cons cur rest =>
          by_cases hc : cur ∈ visited
          · simp only [v3BfsLoop, if_pos hc]
            exact ih rest visited levels h
          · simp only [v3BfsLoop, if_neg hc]
            exact ih _ _ _ (lookupAssoc_foldl_v3BfsStep h)

theorem v3Level_initial (ts : List V3Transition) :
    v3Level "initial" ts = ENum.int 0 := by
  have h0 : lookupAssoc (v3Levels ts) "initial" = some (ENum.int 0) :=
    lookupAssoc_v3BfsLoop _ _ _ _ rfl
  simp only [v3Level, v3LevelsFor, h0, Option.isSome_some, if_true, jsOr0]

theorem mem_foldl_initial {l : List V3Transition} {c : Prop} [Decidable c]
    (hc : c) :
    "initial" ∈ List.foldl v3StateAdd (if c then ["initial"] else []) l := by
  rw [if_pos hc]
  exact mem_foldl_v3StateAdd_of_mem (List.mem_singleton.2 rfl)

/-! ### Claim C1 -/

/-- A v2 document whose second transition (`:t2`) has no
`:transition/to` key; `:t1` is well-formed. -/
def docC1 : String :=
  "\x7b:process/id :test :process/states #\x7b:a :b\x7d :process/transitions [\x7b:transition/id :t1 :transition/from :a :transition/to :b :transition/actor :customer \x7d \x7b:transition/id :t2 :transition/from :b :transition/actor :provider \x7d]\x7d"

/-- The model `parseEdn docC1` actually produces: extraction succeeds
and keeps only `:t1`. -/
def modelC1 : TransactionProcess :=
  { processId := some "test", processStates := some ["a", "b"],
    processTransitions := some
      [{ id := "t1", fromS := V2From.single "a", toS := "b",
         actor := "customer", actions := none, notifications := none }],
    format := none, transitions := none, notifications := none }

/-- C1 counterexample: a document containing a transition that lacks
`to` does NOT make extraction fail — `parseEdn` succeeds, the `to`-less
transition is silently dropped, and a graph (2 nodes, 1 edge) is still
produced. -/
theorem C1_counterexample :
    parseEdn docC1 = Except.ok modelC1 ∧
    (generateGraphData modelC1).nodes.length = 2 ∧
    (generateGraphData modelC1).edges.length = 1 :=
  ⟨rfl, rfl, rfl⟩

/-- C1 (amended): a transition lacking `to` never reaches the output —
a v2 transition text whose `:transition/to` pattern does not match can
only fail to parse (so `parseTransitions` drops it and continues), and
a v3 transition without `to` generates no edge — but extraction itself
succeeds and a graph is still produced from the remaining transitions,
with no `SchemaError`. -/
theorem C1_to_less_transition_dropped :
    (∀ (i : Nat) (t : V3Transition), t.toS = none →
      v3EdgesForTransition i t = []) ∧
    (∀ text : String,
      searchFirst (tryKeyColonCapture ":transition/to".data ednNameStop)
          text.data = none →
      ∀ t : V2Transition, parseTransition text ≠ Except.ok t) := by
  constructor
  · intro i t ht
    unfold v3EdgesForTransition
    rw [ht]
  · intro text h t hok
    unfold parseTransition at hok
    cases h1 : searchFirst (tryKeyColonCapture ":transition/id".data ednNameStop)
        text.data with
    | none => rw [h1] at hok; simp at hok
    | some tid =>
        rw [h1] at hok
        cases h2 : searchFirst (tryV2From ":transition/from".data) text.data with
        | none => rw [h2] at hok; simp at hok
        | some fromContent =>
            rw [h2] at hok
            rw [h] at hok
            simp at hok

/-- Witness for the C1 amended theorem at concrete inputs. -/
theorem C1_to_less_transition_dropped_witness :
    v3EdgesForTransition 0
      { name := "x", actor := none, actions := none,
        toS := none, fromS := none } = [] ∧
    parseTransition "\x7b:transition/id :t2 :transition/from :b :transition/actor :provider \x7d"
      ≠ Except.ok { id := "t2", fromS := V2From.single "b", toS := "?",
                    actor := "provider", actions := none, notifications := none } :=
  ⟨C1_to_less_transition_dropped.1 0 _ rfl,
   C1_to_less_transition_dropped.2 _ (by rfl) _⟩

/-! ### Claim C3 -/

/-- The simple-cycle v2 model of the claim: `A→B`, `B→A`, no other
entry. -/
def cycC3 : List V2Transition :=
  [{ id := "t1", fromS := V2From.single "A", toS := "B", actor := "x",
     actions := none, notifications := none },
   { id := "t2", fromS := V2From.single "B", toS := "A", actor := "x",
     actions := none, notifications := none }]

/-- C3: on a pure two-cycle with no root, the v2 layout has no state to
seed the BFS (every state is some transition's target), so the level map
is empty, `Math.max(...[])` is `-Infinity`, and both nodes are assigned
the layer `-Infinity` — not a finite layer, and not one layer beyond any
maximum. Their `y` coordinates are `-Infinity` as well (the code's own
comment says unreached states are "placed at bottom"). -/
theorem C3_cycle_layer_not_finite :
    v2Level "A" cycC3 ["A", "B"] = ENum.negInf ∧
    v2Level "B" cycC3 ["A", "B"] = ENum.negInf ∧
    (getVerticalTreePositionV2 "A" cycC3 ["A", "B"]).2 = ENum.negInf ∧
    (getVerticalTreePositionV2 "B" cycC3 ["A", "B"]).2 = ENum.negInf :=
  ⟨rfl, rfl, rfl, rfl⟩

/-! ### Claim C4 -/

/-- A document whose top-level map literal has an odd number of child
values (the dangling `:odd` key) — under the claim this must fail with
a positioned `SyntaxError`. -/
def docC4 : String :=
  "\x7b:format :v3 :transitions [\x7b:name :request :to :state/sold\x7d] :odd\x7d"

/-- C4: there is no tokenizer or delimiter/arity validation — the
odd-arity map document parses successfully into a v3 model; no
`SyntaxError` (and no position) exists anywhere in the pipeline. -/
theorem C4_odd_map_document_accepted :
    parseEdn docC4 = Except.ok
      { processId := none, processStates := none, processTransitions := none,
        format := some "v3",
        transitions := some
          [{ name := "request", actor := none, actions := none,
             toS := some "sold", fromS := none }],
        notifications := some [] } :=
  rfl

/-! ### Claim C7 -/

/-- A v2 document whose second transition (`:bad`) lacks
`:transition/actor`; `:good` is well-formed. -/
def docC7 : String :=
  "\x7b:process/id :p :process/states #\x7b:a :b\x7d :process/transitions [\x7b:transition/id :good :transition/from :a :transition/to :b :transition/actor :customer \x7d \x7b:transition/id :bad :transition/from :a :transition/to :b \x7d]\x7d"

/-- C7 counterexample: the v2 pipeline does NOT accept a transition
lacking `actor` — `parseTransition` throws `Missing transition actor`
and `parseTransitions` drops it, so the model keeps only `:good`. -/
theorem C7_counterexample :
    parseEdn docC7 = Except.ok
      { processId := some "p", processStates := some ["a", "b"],
        processTransitions := some
          [{ id := "good", fromS := V2From.single "a", toS := "b",
             actor := "customer", actions := none, notifications := none }],
        format := none, transitions := none, notifications := none } :=
  rfl

/-- C7 (amended): only the v3 path accepts an actor-less transition and
defaults its edge's actor (and stroke color) to `system`; on the v2
path a transition text whose `:transition/actor` pattern does not match
can never parse successfully, so it is dropped from the model. -/
theorem C7_actor_default_v3_only :
    (∀ (i : Nat) (t : V3Transition), t.actor = none →
      ∀ e ∈ v3EdgesForTransition i t,
        e.actor = "system" ∧ e.stroke = getActorColor "system") ∧
    (∀ text : String,
      searchFirst (tryKeyColonCapture ":transition/actor".data ednNameStop)
          text.data = none →
      ∀ t : V2Transition, parseTransition text ≠ Except.ok t) := by
  constructor
  · intro i t ha e he
    unfold v3EdgesForTransition at he
    rcases hto : t.toS with _ | toState
    · rw [hto] at he
      cases he
    · rw [hto] at he
      dsimp only at he
      by_cases h0 : toState = ""
      · rw [if_pos h0] at he
        cases he
      · rw [if_neg h0] at he
        rcases List.mem_singleton.1 he with rfl
        rw [ha]
        exact ⟨rfl, rfl⟩
  · intro text h t hok
    unfold parseTransition at hok
    cases h1 : searchFirst (tryKeyColonCapture ":transition/id".data ednNameStop)
        text.data with
    | none => rw [h1] at hok; simp at hok
    | some tid =>
        rw [h1] at hok
        cases h2 : searchFirst (tryV2From ":transition/from".data) text.data with
        | none => rw [h2] at hok; simp at hok
        | some fromContent =>
            rw [h2] at hok
            cases h3 : searchFirst
                (tryKeyColonCapture ":transition/to".data ednNameStop)
                text.data with
            | none => rw [h3] at hok; simp at hok
            | some toV =>
                rw [h3] at hok
                rw [h] at hok
                simp at hok

/-- Witness for the C7 amended theorem at concrete inputs. -/
theorem C7_actor_default_v3_only_witness :
    (∀ e ∈ v3EdgesForTransition 0
        { name := "x", actor := none, actions := none,
          toS := some "sold", fromS := none },
      e.actor = "system" ∧ e.stroke = getActorColor "system") ∧
    parseTransition "\x7b:transition/id :bad :transition/from :a :transition/to :b \x7d"
      ≠ Except.ok { id := "bad", fromS := V2From.single "a", toS := "b",
                    actor := "?", actions := none, notifications := none } :=
  ⟨C7_actor_default_v3_only.1 0 _ rfl,
   C7_actor_default_v3_only.2 _ (by rfl) _⟩

/-! ### Claim C2 -/

/-- A v2 process model declaring only state `a` while its transition
targets the undeclared state `b`. -/
def modelC2 : TransactionProcess :=
  { processId := some "p", processStates := some ["a"],
    processTransitions := some
      [{ id := "t", fromS := V2From.single "a", toS := "b",
         actor := "customer", actions := none, notifications := none }],
    format := none, transitions := none, notifications := none }

/-- C2 counterexample: the v2 graph builder does not synthesize nodes —
its node set is exactly the declared state list, so the edge of
`modelC2` refers to target `b`, which is not in the node set. -/
theorem C2_counterexample :
    "b" ∈ (generateGraphData modelC2).edges.map GEdge.target ∧
    "b" ∉ (generateGraphData modelC2).nodes.map GNode.id := by
  exact ⟨by decide, by decide⟩

/-- C2 (amended): the closure property holds for the v3 builder — every
edge endpoint of `generateV3GraphData` is in its node set (`initial` is
synthesized for entry transitions, and every truthy `from`/`to` is
collected) — but not for the v2 builder, whose node set is exactly the
declared state list. -/
theorem C2_v3_closure :
    ∀ (p : TransactionProcess) (e : GEdge),
      e ∈ (generateV3GraphData p).edges →
      e.source ∈ (generateV3GraphData p).nodes.map GNode.id ∧
      e.target ∈ (generateV3GraphData p).nodes.map GNode.id := by
  intro p e he
  have hn : (generateV3GraphData p).nodes.map GNode.id
      = v3States (p.transitions.getD []) := by
    unfold generateV3GraphData
    rw [List.map_map]
    exact List.map_id'' (fun s => rfl) _
  rw [hn]
  have he2 : e ∈ (p.transitions.getD []).enum.flatMap
      (fun q => v3EdgesForTransition q.1 q.2) := he
  rw [List.mem_flatMap] at he2
  obtain ⟨⟨i, t⟩, hmem, he3⟩ := he2
  have ht : t ∈ p.transitions.getD [] := by
    obtain ⟨hlt, heq⟩ := List.mem_enum hmem
    exact heq ▸ List.getElem_mem hlt
  unfold v3EdgesForTransition at he3
  rcases hto : t.toS with _ | toState
  · rw [hto] at he3
    cases he3
  · rw [hto] at he3
    dsimp only at he3
    by_cases h0 : toState = ""
    · rw [if_pos h0] at he3
      cases he3
    · rw [if_neg h0] at he3
      rcases List.mem_singleton.1 he3 with rfl
      have hinit : jsTruthyStr t.fromS = false →
          "initial" ∈ v3States (p.transitions.getD []) := by
        intro hf
        simp only [v3States]
        exact mem_foldl_initial
          (List.length_pos_of_mem (List.mem_filter.2 ⟨ht, by simp [hf]⟩))
      constructor
      · show jsFromOr t ∈ v3States (p.transitions.getD [])
        rcases hf : t.fromS with _ | s
        · have hi : jsFromOr t = "initial" := by simp [jsFromOr, jsOrStr, hf]
          rw [hi]
          exact hinit (by simp [jsTruthyStr, hf])
        · by_cases hs : s = ""
          · have hi : jsFromOr t = "initial" := by
              simp [jsFromOr, jsOrStr, hf, hs]
            rw [hi]
            exact hinit (by simp [jsTruthyStr, hf, hs])
          · have hi : jsFromOr t = s := by simp [jsFromOr, jsOrStr, hf, hs]
            rw [hi]
            unfold v3States
            exact mem_foldl_v3StateAdd_of_elem ht
              (fun acc => mem_v3StateAdd_from hf hs)
      · show toState ∈ v3States (p.transitions.getD [])
        unfold v3States
        exact mem_foldl_v3StateAdd_of_elem ht
          (fun acc => mem_v3StateAdd_to hto h0)

/-- Witness for the C2 amended theorem at a concrete model: an entry
transition plus a forward transition whose endpoints all appear among
the node ids. -/
theorem C2_v3_closure_witness :
    "initial" ∈ (generateV3GraphData
      { processId := none, processStates := none, processTransitions := none,
        format := some "v3",
        transitions := some
          [{ name := "request", actor := none, actions := none,
             toS := some "inquiry", fromS := none }],
        notifications := some [] }).nodes.map GNode.id := by
  have h := C2_v3_closure
    { processId := none, processStates := none, processTransitions := none,
      format := some "v3",
      transitions := some
        [{ name := "request", actor := none, actions := none,
           toS := some "inquiry", fromS := none }],
      notifications := some [] }
    { id := "request-0", source := "initial", target := "inquiry",
      label := "request", stroke := JsValue.str "#6B7280", transitionId := "request",
      actor := "system", actions := [], notifications := [],
      fromS := "initial", toS := "inquiry" }
    (by decide)
  exact h.1

/-! ### Claim C5 -/

/-- C5: for a v2 transition with `n` from-states, the builder emits
exactly `n` edges, one per (transition, from-state) pair (their sources
are the from-list itself, in order), all sharing the transition id,
actor, action list and notification list; when the from-states are
distinct (they come from a set literal) the edges have pairwise
distinct `from`s, and the edge ids `id-0, id-1, …` are pairwise
distinct unconditionally. -/
theorem C5_multi_from_fan_out :
    ∀ t : V2Transition, (v2FromList t).Nodup →
      ((v2EdgesForTransition t).length = (v2FromList t).length ∧
       (v2EdgesForTransition t).map GEdge.source = v2FromList t ∧
       (∀ e ∈ v2EdgesForTransition t,
         e.transitionId = t.id ∧ e.actor = t.actor ∧
         e.actions = t.actions.getD [] ∧
         e.notifications = t.notifications.getD []) ∧
       ((v2EdgesForTransition t).map GEdge.fromS).Nodup ∧
       ((v2EdgesForTransition t).map GEdge.id).Nodup) := by
  intro t hnd
  have hsrc : (v2EdgesForTransition t).map GEdge.source = v2FromList t := by
    unfold v2EdgesForTransition
    rw [List.map_map]
    show List.map Prod.snd ((v2FromList t).enum) = v2FromList t
    exact List.enum_map_snd _
  have hfrom : (v2EdgesForTransition t).map GEdge.fromS = v2FromList t := by
    unfold v2EdgesForTransition
    rw [List.map_map]
    show List.map Prod.snd ((v2FromList t).enum) = v2FromList t
    exact List.enum_map_snd _
  refine ⟨?_, hsrc, ?_, ?_, ?_⟩
  · unfold v2EdgesForTransition
    simp
  · intro e he
    obtain ⟨q, hq, rfl⟩ := List.mem_map.1 he
    exact ⟨rfl, rfl, rfl, rfl⟩
  · rw [hfrom]
    exact hnd
  · have hid : (v2EdgesForTransition t).map GEdge.id
        = (List.range (v2FromList t).length).map
            (fun i => t.id ++ "-" ++ Nat.repr i) := by
      unfold v2EdgesForTransition
      rw [List.map_map]
      show List.map ((fun i => t.id ++ "-" ++ Nat.repr i) ∘ Prod.fst)
          ((v2FromList t).enum) = _
      rw [← List.map_map, List.enum_map_fst]
    rw [hid]
    exact List.Nodup.map (dashRepr_injective t.id) (List.nodup_range _)

/-- The three-from transition of the claim's test sentence. -/
def tC5 : V2Transition :=
  { id := "t", fromS := V2From.multi ["a", "b", "c"], toS := "d",
    actor := "operator", actions := some ["decline"], notifications := none }

/-- Witness for C5 at a transition with three distinct from-states. -/
theorem C5_multi_from_fan_out_witness :
    (v2EdgesForTransition tC5).length = 3 ∧
    ((v2EdgesForTransition tC5).map GEdge.id).Nodup := by
  have h := C5_multi_from_fan_out tC5 (by decide)
  exact ⟨h.1.trans (by rfl), h.2.2.2.2⟩

/-! ### Claim C6 -/

/-- C6: whenever some v3 transition has a falsy `from` (an entry
transition), a single synthetic `initial` node is in the node set;
every edge generated from any entry transition has that same `initial`
as its source (and `data.from`); and `initial`'s layer is 0. -/
theorem C6_entry_transitions_share_initial :
    ∀ p : TransactionProcess,
      (∃ t ∈ p.transitions.getD [], jsTruthyStr t.fromS = false) →
      ("initial" ∈ (generateV3GraphData p).nodes.map GNode.id ∧
       (∀ t ∈ p.transitions.getD [], jsTruthyStr t.fromS = false →
         ∀ (i : Nat), ∀ e ∈ v3EdgesForTransition i t,
           e.source = "initial" ∧ e.fromS = "initial") ∧
       v3Level "initial" (p.transitions.getD []) = ENum.int 0) := by
  intro p hex
  obtain ⟨t0, ht0, hf0⟩ := hex
  refine ⟨?_, ?_, v3Level_initial _⟩
  · have hn : (generateV3GraphData p).nodes.map GNode.id
        = v3States (p.transitions.getD []) := by
      unfold generateV3GraphData
      rw [List.map_map]
      exact List.map_id'' (fun s => rfl) _
    rw [hn]
    simp only [v3States]
    exact mem_foldl_initial
      (List.length_pos_of_mem (List.mem_filter.2 ⟨ht0, by simp [hf0]⟩))
  · intro t ht hf i e he
    unfold v3EdgesForTransition at he
    rcases hto : t.toS with _ | toState
    · rw [hto] at he
      cases he
    · rw [hto] at he
      dsimp only at he
      by_cases h0 : toState = ""
      · rw [if_pos h0] at he
        cases he
      · rw [if_neg h0] at he
        rcases List.mem_singleton.1 he with rfl
        have hi : jsFromOr t = "initial" := by
          rcases hff : t.fromS with _ | s
          · simp [jsFromOr, jsOrStr, hff]
          · have hs : s = "" := by
              rw [hff] at hf
              simpa [jsTruthyStr] using hf
            simp [jsFromOr, jsOrStr, hff, hs]
        exact ⟨hi, hi⟩

/-- The two-transition v3 model of end-to-end scenario 2. -/
def tsC6 : List V3Transition :=
  [{ name := "request", actor := some "customer", actions := none,
     toS := some "inquiry", fromS := none },
   { name := "pay", actor := some "customer", actions := none,
     toS := some "pending-payment", fromS := some "inquiry" }]

/-- Witness for C6 at the scenario-2 model. -/
theorem C6_entry_transitions_share_initial_witness :
    "initial" ∈ (generateV3GraphData
      { processId := none, processStates := none, processTransitions := none,
        format := some "v3", transitions := some tsC6,
        notifications := some [] }).nodes.map GNode.id ∧
    v3Level "initial" tsC6 = ENum.int 0 := by
  have h := C6_entry_transitions_share_initial
    { processId := none, processStates := none, processTransitions := none,
      format := some "v3", transitions := some tsC6,
      notifications := some [] }
    ⟨{ name := "request", actor := some "customer", actions := none,
       toS := some "inquiry", fromS := none }, by decide, rfl⟩
  exact ⟨h.1, h.2.2⟩

/-! ### Claim C8 -/

/-- C8 (amended): the v3 layout is centered —
`x = 400 + (i − (k−1)/2)·280` over the rationals, where `k` is the size
of the node's layer and `i` its index — and its `y` is
`layer·180 + 100`; the v2 layout is left-aligned at `x = i·250 + 100`
with `y = layer·150 + 50`. Both vertical coordinates carry a constant
offset on top of `layer · row_height`. -/
theorem C8_amended_positions :
    ∀ (state : String) (ts3 : List V3Transition) (ts2 : List V2Transition)
      (ss : List String),
      (((getImprovedTreePosition state ts3 ss).1 : ℚ)
          = 400 + ((jsIndexOf (v3StatesAtLevel state ts3 ss) state : ℚ)
              - (((v3StatesAtLevel state ts3 ss).length : ℚ) - 1) / 2) * 280) ∧
      (∀ n : Int, v3Level state ts3 = ENum.int n →
          (getImprovedTreePosition state ts3 ss).2 = ENum.int (n * 180 + 100)) ∧
      ((getVerticalTreePositionV2 state ts2 ss).1
          = jsIndexOf (v2StatesAtLevel state ts2 ss) state * 250 + 100) ∧
      (∀ n : Int, v2Level state ts2 ss = ENum.int n →
          (getVerticalTreePositionV2 state ts2 ss).2 = ENum.int (n * 150 + 50)) := by
  intro state ts3 ts2 ss
  refine ⟨?_, ?_, rfl, ?_⟩
  · have hx : (getImprovedTreePosition state ts3 ss).1
        = jsIndexOf (v3StatesAtLevel state ts3 ss) state * 280
          + (400 - (((v3StatesAtLevel state ts3 ss).length : Int) - 1) * 280 / 2) :=
      rfl
    rw [hx]
    have hdiv : (((v3StatesAtLevel state ts3 ss).length : Int) - 1) * 280 / 2
        = (((v3StatesAtLevel state ts3 ss).length : Int) - 1) * 140 := by
      have h2 : (((v3StatesAtLevel state ts3 ss).length : Int) - 1) * 280
          = 2 * ((((v3StatesAtLevel state ts3 ss).length : Int) - 1) * 140) := by
        ring
      rw [h2, Int.mul_ediv_cancel_left _ (by norm_num)]
    rw [hdiv]
    push_cast
    ring
  · intro n hn
    have hy : (getImprovedTreePosition state ts3 ss).2
        = ((v3Level state ts3).scale 180).addC 100 := rfl
    rw [hy, hn]
    rfl
  · intro n hn
    have hy : (getVerticalTreePositionV2 state ts2 ss).2
        = ((v2Level state ts2 ss).scale 150).addC 50 := rfl
    rw [hy, hn]
    rfl

/-- Witness for C8 at concrete layouts (layer-0 nodes in both
variants). -/
theorem C8_amended_positions_witness :
    (getImprovedTreePosition "initial" [] []).2 = ENum.int 100 ∧
    (getVerticalTreePositionV2 "a" [] ["a"]).2 = ENum.int 50 :=
  ⟨((C8_amended_positions "initial" [] [] []).2.1 0 rfl).trans (by decide),
   ((C8_amended_positions "a" [] [] ["a"]).2.2.2 0 rfl).trans (by decide)⟩

/-- The v2 model with one root (`a`) and a two-node second layer
(`b`, `c`). -/
def tsC8 : List V2Transition :=
  [{ id := "t1", fromS := V2From.single "a", toS := "b", actor := "x",
     actions := none, notifications := none },
   { id := "t2", fromS := V2From.single "a", toS := "c", actor := "x",
     actions := none, notifications := none }]

/-- C8 counterexample: in the v2 layout the layer-0 node `a` sits at
`y = 50`, which is not `0 · h` for any row height, and the computed
`x` coordinates `100, 100, 350` admit no shared axis/spacing
satisfying the claimed centering formula across both layers. -/
theorem C8_counterexample :
    v2Level "a" tsC8 ["a", "b", "c"] = ENum.int 0 ∧
    getVerticalTreePositionV2 "a" tsC8 ["a", "b", "c"] = (100, ENum.int 50) ∧
    getVerticalTreePositionV2 "b" tsC8 ["a", "b", "c"] = (100, ENum.int 200) ∧
    getVerticalTreePositionV2 "c" tsC8 ["a", "b", "c"] = (350, ENum.int 200) ∧
    (¬ ∃ h : ℤ, 0 * h = 50) ∧
    (¬ ∃ axisX spacingX : ℚ,
        (100 : ℚ) = axisX + (0 - (1 - 1) / 2) * spacingX ∧
        (100 : ℚ) = axisX + (0 - (2 - 1) / 2) * spacingX ∧
        (350 : ℚ) = axisX + (1 - (2 - 1) / 2) * spacingX) := by
  refine ⟨by decide, by decide, by decide, by decide, ?_, ?_⟩
  · rintro ⟨h, hh⟩
    omega
  · rintro ⟨axisX, spacingX, h1, h2, h3⟩
    have hs : spacingX = 0 := by linarith
    rw [hs] at h2 h3
    have : (100 : ℚ) = axisX := by linarith
    linarith

/-! ### Claim C9 -/

theorem lookupStr_none {l : List (String × String)} {key : String}
    (h : ∀ kv ∈ l, kv.1 ≠ key) : lookupStr l key = none := by
  induction l with
  | nil => rfl
  | cons hd tl ih =>
      obtain ⟨k, v⟩ := hd
      simp only [lookupStr]
      rw [if_neg (h (k, v) (List.mem_cons_self _ _))]
      exact ih (fun kv hm => h kv (List.mem_cons_of_mem _ hm))

/-- C9 counterexample: the color-key derivation is not "a default color
for any other string" — bracket access on `ACTOR_COLORS` also finds
inherited `Object.prototype` members, and `constructor` and `__proto__`
survive `toLowerCase`, so `getActorColor` returns the inherited
function/object (truthy, so the `|| default` never fires) rather than
any color string. -/
theorem C9_counterexample :
    getActorColor "constructor" = JsValue.obj "constructor" ∧
    getActorColor "Constructor" = JsValue.obj "constructor" ∧
    getActorColor "actor.role/__proto__" = JsValue.obj "__proto__" ∧
    getActorColor "constructor" ≠ JsValue.str "#6B7280" :=
  ⟨rfl, rfl, rfl, by decide⟩

/-- C9 (amended): `getActorColor` is a total function of the actor
alone and never throws; the known actors map to their fixed colors;
every actor string maps to one of the four fixed colors *unless* its
normalization (lower-cased, `actor.role/` stripped) is an inherited
`Object.prototype` member name, in which case the inherited
function/object is returned instead of a color; any string whose
normalization is neither an own key of `ACTOR_COLORS` nor such a member
gets the default gray. -/
theorem C9_actor_color_amended :
    (getActorColor "customer" = JsValue.str "#F97316" ∧
     getActorColor "provider" = JsValue.str "#EC4899" ∧
     getActorColor "operator" = JsValue.str "#10B981" ∧
     getActorColor "system" = JsValue.str "#6B7280") ∧
    (∀ a : String,
      getActorColor a = JsValue.str "#F97316" ∨
      getActorColor a = JsValue.str "#EC4899" ∨
      getActorColor a = JsValue.str "#10B981" ∨
      getActorColor a = JsValue.str "#6B7280" ∨
      (∃ m ∈ objectProtoMembers, getActorColor a = JsValue.obj m)) ∧
    (∀ a : String,
      stripPre "actor.role/" (toLowerJs a) ∉
        (["customer", "provider", "operator", "system", "default"] : List String) →
      stripPre "actor.role/" (toLowerJs a) ∉ objectProtoMembers →
      getActorColor a = JsValue.str "#6B7280") ∧
    (∀ a : String,
      stripPre "actor.role/" (toLowerJs a) ∉
        (["customer", "provider", "operator", "system", "default"] : List String) →
      stripPre "actor.role/" (toLowerJs a) ∈ objectProtoMembers →
      getActorColor a = JsValue.obj (stripPre "actor.role/" (toLowerJs a))) := by
  have hnone : ∀ a : String,
      stripPre "actor.role/" (toLowerJs a) ∉
        (["customer", "provider", "operator", "system", "default"] : List String) →
      lookupStr ACTOR_COLORS (stripPre "actor.role/" (toLowerJs a)) = none := by
    intro a h
    apply lookupStr_none
    intro kv hm hk
    apply h
    rw [← hk]
    simp only [ACTOR_COLORS, List.mem_cons, List.not_mem_nil, or_false] at hm
    rcases hm with rfl | rfl | rfl | rfl | rfl <;> simp_all
  have hcases : ∀ key : String,
      jsOrVal (jsPropAccess ACTOR_COLORS key) "#6B7280" = JsValue.str "#F97316" ∨
      jsOrVal (jsPropAccess ACTOR_COLORS key) "#6B7280" = JsValue.str "#EC4899" ∨
      jsOrVal (jsPropAccess ACTOR_COLORS key) "#6B7280" = JsValue.str "#10B981" ∨
      jsOrVal (jsPropAccess ACTOR_COLORS key) "#6B7280" = JsValue.str "#6B7280" ∨
      (∃ m ∈ objectProtoMembers,
        jsOrVal (jsPropAccess ACTOR_COLORS key) "#6B7280" = JsValue.obj m) := by
    intro key
    cases hl : lookupStr ACTOR_COLORS key with
    | some v =>
        have hv : v = "#F97316" ∨ v = "#EC4899" ∨ v = "#10B981" ∨
            v = "#6B7280" := by
          simp only [ACTOR_COLORS, lookupStr] at hl
          split_ifs at hl <;> simp_all
        rcases hv with rfl | rfl | rfl | rfl <;> simp [jsPropAccess, hl, jsOrVal]
    | none =>
        by_cases h2 : key ∈ objectProtoMembers
        · right; right; right; right
          exact ⟨key, h2, by simp [jsPropAccess, hl, h2, jsOrVal]⟩
        · simp [jsPropAccess, hl, h2, jsOrVal]
  refine ⟨⟨rfl, rfl, rfl, rfl⟩, ?_, ?_, ?_⟩
  · intro a
    simpa only [getActorColor]
      using hcases (stripPre "actor.role/" (toLowerJs a))
  · intro a h1 h2
    simp only [getActorColor, jsPropAccess, hnone a h1]
    rw [if_neg h2]
    rfl
  · intro a h1 h2
    simp only [getActorColor, jsPropAccess, hnone a h1]
    rw [if_pos h2]
    rfl

/-- Witness for the C9 amended theorem: an unrecognized actor gets the
default gray; a camel-cased `Object.prototype` name does not survive
lower-casing and also gets the default; an upper-cased `__PROTO__`
normalizes to the inherited accessor. -/
theorem C9_actor_color_amended_witness :
    getActorColor "banana" = JsValue.str "#6B7280" ∧
    getActorColor "actor.role/ToString" = JsValue.str "#6B7280" ∧
    getActorColor "__PROTO__" = JsValue.obj "__proto__" :=
  ⟨C9_actor_color_amended.2.2.1 "banana" (by decide) (by decide),
   C9_actor_color_amended.2.2.1 "actor.role/ToString" (by decide) (by decide),
   C9_actor_color_amended.2.2.2 "__PROTO__" (by decide) (by decide)⟩

/-! ### Claim C10 -/

/-- C10: `parseEdn` dispatches on raw substring containment of the
comment-stripped text — the v3 branch is taken whenever `:format :v3`
occurs anywhere (legacy keys present or not), and the legacy branch is
taken exactly when that substring is absent and both `:process/id` and
`:process/states` are present. -/
theorem C10_format_dispatch :
    ∀ s : String,
      (containsSub (stripComments s) ":format :v3" = true →
        parseEdn s = parseV3Format (stripComments s)) ∧
      (containsSub (stripComments s) ":format :v3" = false →
        containsSub (stripComments s) ":process/id" = true →
        containsSub (stripComments s) ":process/states" = true →
        parseEdn s = parseV2Format (stripComments s)) := by
  intro s
  constructor
  · intro h
    simp only [parseEdn]
    rw [if_pos h]
  · intro h1 h2 h3
    simp only [parseEdn]
    rw [if_neg (by simp [h1]), if_pos (by simp [h2, h3])]

/-- A legacy-looking document that also contains `:format :v3` inside a
string literal: the v3 path wins. -/
def docC10 : String :=
  "\x7b:process/id :p :process/states #\x7b:a\x7d :note \":format :v3\" :transitions [\x7b:name :go :to :state/b\x7d]\x7d"

/-- Witness for C10: the marker inside a string literal forces the v3
path even with both legacy keys present. -/
theorem C10_format_dispatch_witness :
    parseEdn docC10 = parseV3Format (stripComments docC10) :=
  (C10_format_dispatch docC10).1 (by rfl)

end ProcessViz
